import Mathlib

/-!
Shallow embedding of the `display` package of larsks/ssd1306-display
(`internal/display/display.go` and the `ShowImage` routine of the same
package), together with proofs about its line-buffer, persistence and
rendering behaviour.

Modelling conventions:
* Go strings are Lean `String`s; `strings.Split(s, "\n")` and
  `strings.Join(ls, "\n")` are modelled at the character-list level by
  `List.splitOn '\n'` and `List.intercalate ['\n']`.
* The file system is modelled by the contents of the single configured
  buffer file (`Option String`, `none` = the file does not exist) plus a
  boolean saying whether `os.WriteFile` succeeds.
* The SSD1306 driver is modelled by its reported bounds plus a boolean
  saying whether `Draw` succeeds; calls into the driver are recorded in an
  event trace.
* Errors (which in Go are `fmt.Errorf` values distinguished by message)
  are modelled by an inductive type of error kinds.
-/

namespace SSD1306Display

/-- Character-level model of Go `strings.Split(s, "\n")`. -/
def strSplitNL (s : String) : List String :=
  (s.data.splitOn '\n').map String.mk

/-- Character-level model of Go `strings.Join(ls, "\n")`. -/
def strJoinNL (ls : List String) : String :=
  String.mk (List.intercalate ['\n'] (ls.map String.data))

/-- Go conversion `int(u)` of a 64-bit `uint` value (represented as a Nat
reduced modulo 2^64): values below 2^63 are unchanged, larger values wrap
to negative two's-complement integers. -/
def intOfUint (n : Nat) : Int :=
  let m : Nat := n % 2 ^ 64
  if m < 2 ^ 63 then (m : Int) else (m : Int) - 2 ^ 64

/-- Two's-complement wrap-around of 64-bit signed `int` arithmetic in Go:
reduces an integer into the interval `[-2^63, 2^63)`. -/
def wrapInt64 (z : Int) : Int :=
  (z + 2 ^ 63) % 2 ^ 64 - 2 ^ 63

/-- Model of Go `image.Point`. -/
structure Point where
  x : Int
  y : Int
deriving DecidableEq, Repr

/-- Model of Go `image.Rectangle` (`Min` inclusive, `Max` exclusive). -/
structure Rect where
  min : Point
  max : Point
deriving DecidableEq, Repr

/-- Membership of a pixel coordinate in a rectangle, as in `image.Point.In`. -/
def inRect (r : Rect) (x y : Int) : Bool :=
  r.min.x ≤ x && x < r.max.x && r.min.y ≤ y && y < r.max.y

/-- Kinds of outcomes of display operations other than success: the error
returns of the package (in Go `fmt.Errorf` values distinguished only by
their message), plus `panicked`, which models a Go runtime panic raised by
an out-of-range slice index — a crash, not an error return of the
function. -/
inductive DispErr where
  | notInitialized
  | outOfRange
  | overflow
  | missingPath
  | persistFailure
  | drawFailure
  | openFailure
  | panicked
deriving DecidableEq, Repr

/-- Model of the `SSD1306` driver interface: its reported pixel bounds and
whether a `Draw` call succeeds. -/
structure Driver where
  bounds : Rect
  drawOk : Bool
deriving DecidableEq, Repr

/-- Externally visible effects of a display operation: a buffer-file write
attempt (`os.WriteFile`), a `driver.Bounds()` query, or a `driver.Draw` call
with its region and source offset. -/
inductive Event where
  | fileWrite (path content : String)
  | boundsQ
  | draw (r : Rect) (sp : Point)
deriving DecidableEq, Repr

/-- Whether an event is a `Draw` call into the render target. -/
def Event.isDraw : Event → Bool
  | .draw _ _ => true
  | _ => false

/-- The world a display operation interacts with: the contents of the
configured buffer file (`none` = file does not exist), whether a file write
succeeds, and the driver. -/
structure World where
  file : Option String
  writeOk : Bool
  driver : Driver
deriving DecidableEq, Repr

/-- Model of the `Display` struct of `display.go` (the fields `busName`,
`driver`, `font` and `lineHeight` are carried by `World`/`Driver` or do not
affect the properties proved here): `bufferFile` is the persistence path
(`""` = none), `lines` is the fixed line capacity, `buffer` is the line
buffer, `initialized` the lifecycle gate. -/
structure Display where
  bufferFile : String
  lines : Nat
  buffer : List String
  initialized : Bool
deriving DecidableEq, Repr

/-- Model of the Go builtin `copy(dst, src)` on string slices: overwrites the
first `min (length dst) (length src)` entries of `dst` with those of `src`,
keeping the rest of `dst`. -/
def copyGo : List String → List String → List String
  | [], _ => []
  | ds, [] => ds
  | _ :: ds, s :: ss => s :: copyGo ds ss

/-- Result of the `PrintLines` write loop: it either runs to completion or
panics at the first out-of-range index, in both cases carrying the buffer
as mutated so far. -/
inductive LoopResult where
  | done (buf : List String)
  | panicked (buf : List String)
deriving DecidableEq, Repr

/-- The buffer carried by a `LoopResult`. -/
def LoopResult.buf : LoopResult → List String
  | .done b => b
  | .panicked b => b

/-- Model of the write loop of `Display.PrintLines`,
`for i := range text { d.buffer[int(line)+i] = text[i] }`, including the
runtime panic Go raises when the `int`-typed index `int(line)+i` is
negative or at least the buffer length (writes before the panicking index
have already happened). -/
def writeLoop : List String → Int → List String → LoopResult
  | buf, _, [] => .done buf
  | buf, k, t :: ts =>
    if 0 ≤ k ∧ k < buf.length then writeLoop (buf.set k.toNat t) (k + 1) ts
    else .panicked buf

/-- Model of `Display.Clear` (display.go lines 87-95): requires the display
to be initialized and blanks every buffer entry. -/
def Display.Clear (d : Display) : Option DispErr × Display :=
  if !d.initialized then (some .notInitialized, d)
  else (none, { d with buffer := d.buffer.map fun _ => "" })

/-- Model of `Display.PrintLine` (display.go lines 97-108): requires the
display to be initialized, then runs the Go range check
`int(line) >= len(d.buffer)` — where `line` is a `uint` and the conversion
wraps — and on passing it executes `d.buffer[line] = text`, which in Go
panics when the `uint` index `line` is itself outside the buffer (the case
a wrapped-negative `int(line)` lets through). -/
def Display.PrintLine (d : Display) (line : Nat) (text : String) :
    Option DispErr × Display :=
  if !d.initialized then (some .notInitialized, d)
  else if (d.buffer.length : Int) ≤ intOfUint line then (some .outOfRange, d)
  else if line % 2 ^ 64 < d.buffer.length then
    (none, { d with buffer := d.buffer.set (line % 2 ^ 64) text })
  else (some .panicked, d)

/-- Model of `Display.PrintLines` (display.go lines 110-124): requires the
display to be initialized, then runs the Go overflow check
`int(line)+len(text) > int(d.lines)` — with `uint`-to-`int` wrap on `line`
and `d.lines` and 64-bit wrap-around of the sum — and on passing it runs
the write loop, which panics at the first out-of-range index. -/
def Display.PrintLines (d : Display) (line : Nat) (text : List String) :
    Option DispErr × Display :=
  if !d.initialized then (some .notInitialized, d)
  else if intOfUint d.lines < wrapInt64 (intOfUint line + text.length) then
    (some .overflow, d)
  else
    match writeLoop d.buffer (intOfUint line) text with
    | .done buf => (none, { d with buffer := buf })
    | .panicked buf => (some .panicked, { d with buffer := buf })

/-- Model of `Display.updateFromFile` (display.go lines 126-140): fails when
no buffer file is configured; a nonexistent file is not an error and leaves
the buffer untouched; otherwise the file contents are split on newline,
truncated to the buffer length, and copied into the buffer front. -/
def Display.updateFromFile (d : Display) (file : Option String) :
    Option DispErr × Display :=
  if d.bufferFile = "" then (some .missingPath, d)
  else
    match file with
    | some data =>
      let ls := strSplitNL data
      let ls := if d.buffer.length < ls.length then ls.take d.buffer.length else ls
      (none, { d with buffer := copyGo d.buffer ls })
    | none => (none, d)

/-- Model of `Display.Init` (display.go lines 58-78): allocates a buffer of
`lines` empty strings, loads the buffer file when one is configured, then
opens the driver (`openOk` says whether `driver.Open()` succeeds) and marks
the display initialized. -/
def Display.Init (d : Display) (file : Option String) (openOk : Bool) :
    Option DispErr × Display :=
  let d1 := { d with buffer := List.replicate d.lines "" }
  if d1.bufferFile ≠ "" then
    match d1.updateFromFile file with
    | (some e, d2) => (some e, d2)
    | (none, d2) =>
      if openOk then (none, { d2 with initialized := true })
      else (some .openFailure, d2)
  else
    if openOk then (none, { d1 with initialized := true })
    else (some .openFailure, d1)

/-- Result of `Display.Update`: the returned error, the display afterwards,
the buffer-file contents afterwards, and the trace of driver/file events. -/
structure UpdateResult where
  err : Option DispErr
  disp : Display
  file : Option String
  events : List Event
deriving DecidableEq, Repr

/-- Rasterize-and-draw tail of `Display.Update` (display.go lines 155-171):
queries `driver.Bounds()` for the frame image, rasterizes the buffer text
into it, then calls `driver.Draw(driver.Bounds(), img, image.Point{})`. -/
def drawPhase (d : Display) (file : Option String) (evs : List Event)
    (w : World) : UpdateResult :=
  let evs := evs ++ [Event.boundsQ, Event.boundsQ,
    Event.draw w.driver.bounds ⟨0, 0⟩]
  if w.driver.drawOk then ⟨none, d, file, evs⟩
  else ⟨some .drawFailure, d, file, evs⟩

/-- Model of `Display.Update` (display.go lines 142-171): requires the
display to be initialized; when a buffer file is configured it first writes
the newline-joined buffer to it (a failed write aborts the commit); then it
rasterizes the buffer and draws the frame at the driver's full bounds with a
zero source offset. -/
def Display.Update (d : Display) (w : World) : UpdateResult :=
  if !d.initialized then ⟨some .notInitialized, d, w.file, []⟩
  else if d.bufferFile ≠ "" then
    let content := strJoinNL d.buffer
    if w.writeOk then
      drawPhase d (some content) [Event.fileWrite d.bufferFile content] w
    else ⟨some .persistFailure, d, w.file,
      [Event.fileWrite d.bufferFile content]⟩
  else drawPhase d w.file [] w

/-- A source bitmap for `ShowImage`, abstracted to its bounds and the
grayscale level (`color.GrayModel.Convert(img.At(x,y)).Y`, a value in
`0..255`) at each coordinate. -/
structure GrayImage where
  bounds : Rect
  grayAt : Int → Int → Nat

/-- A monochrome frame: its bounds and the on/off value of each pixel. -/
structure Frame where
  bounds : Rect
  pix : Int → Int → Bool

/-- Pixel function built by the sampling loop of `Display.ShowImage`
(part of the display package): for a target pixel `(x, y)` inside the
target bounds, sample the source at `(imgBounds.Min + (x, y))`; when the
sample is below the source's `Max` bound, the pixel is on iff the gray
level exceeds 128; everywhere else the pixel keeps the zero (off) value of
the fresh `image1bit` frame. -/
def showImagePix (tgt : Rect) (img : GrayImage) (x y : Int) : Bool :=
  if inRect tgt x y then
    let srcX := img.bounds.min.x + x
    let srcY := img.bounds.min.y + y
    if srcX < img.bounds.max.x && srcY < img.bounds.max.y then
      decide (128 < img.grayAt srcX srcY)
    else false
  else false

/-- Model of `Display.ShowImage`: requires the display to be initialized,
builds a frame sized to `driver.Bounds()` via `showImagePix`, and draws it;
a rejected draw is an error but the frame was still produced. -/
def Display.ShowImage (d : Display) (drv : Driver) (img : GrayImage) :
    Option DispErr × Option Frame :=
  if !d.initialized then (some .notInitialized, none)
  else
    let frame : Frame := ⟨drv.bounds, showImagePix drv.bounds img⟩
    if drv.drawOk then (none, some frame)
    else (some .drawFailure, some frame)

/-! Helper lemmas -/

theorem writeLoop_buf_length (ts buf : List String) (k : Int) :
    (writeLoop buf k ts).buf.length = buf.length := by
  induction ts generalizing buf k with
  | nil => rfl
  | cons t ts ih =>
    unfold writeLoop
    split
    · rw [ih]
      simp [LoopResult.buf]
    · rfl

theorem copyGo_length (ds ss : List String) :
    (copyGo ds ss).length = ds.length := by
  induction ds generalizing ss with
  | nil => cases ss <;> rfl
  | cons d ds ih =>
    cases ss with
    | nil => rfl
    | cons s ss => simp [copyGo, ih]

theorem copyGo_getElem? (ds ss : List String) (j : Nat) :
    (copyGo ds ss)[j]? =
      if j < min ds.length ss.length then ss[j]? else ds[j]? := by
  induction ds generalizing ss j with
  | nil => simp [copyGo]
  | cons d ds ih =>
    cases ss with
    | nil => simp [copyGo]
    | cons s ss =>
      cases j with
      | zero => simp [copyGo]
      | succ j =>
        simp only [copyGo, List.getElem?_cons_succ, ih, List.length_cons,
          Nat.succ_min_succ, Nat.succ_lt_succ_iff]

theorem copyGo_of_length_le (ds ss : List String) (h : ds.length ≤ ss.length) :
    copyGo ds ss = ss.take ds.length := by
  induction ds generalizing ss with
  | nil => simp [copyGo]
  | cons d ds ih =>
    cases ss with
    | nil => simp at h
    | cons s ss => simp [copyGo, ih _ (by simpa using h)]

theorem string_mk_data (s : String) : String.mk s.data = s := rfl

theorem strSplitNL_strJoinNL (ls : List String) (hne : ls ≠ [])
    (hnl : ∀ s ∈ ls, '\n' ∉ s.data) :
    strSplitNL (strJoinNL ls) = ls := by
  unfold strSplitNL strJoinNL
  rw [string_mk_data]
  rw [List.splitOn_intercalate (ls.map String.data) '\n'
    (by intro l hl; rcases List.mem_map.mp hl with ⟨s, hs, rfl⟩; exact hnl s hs)
    (by simpa using hne)]
  rw [List.map_map]
  simp [Function.comp_def, string_mk_data]

theorem Update_disp_eq (d : Display) (w : World) : (d.Update w).disp = d := by
  unfold Display.Update drawPhase
  split_ifs <;> rfl

theorem copyGo_nil_left (ss : List String) : copyGo [] ss = [] := by
  cases ss <;> rfl

theorem Update_file_eq (d : Display) (w : World) (hinit : d.initialized = true)
    (hfile : d.bufferFile ≠ "") (hw : w.writeOk = true) :
    (d.Update w).file = some (strJoinNL d.buffer) := by
  unfold Display.Update drawPhase
  cases hdraw : w.driver.drawOk <;> simp [hinit, hfile, hw, hdraw]

theorem Init_fresh_buffer (n : Nat) (path content : String) (hpath : path ≠ "") :
    ((⟨path, n, [], false⟩ : Display).Init (some content) true).2.buffer
      = copyGo (List.replicate n "")
          (if n < (strSplitNL content).length
           then (strSplitNL content).take n else strSplitNL content) := by
  unfold Display.Init Display.updateFromFile
  simp [hpath]

/-! Claim theorems -/

/-- C3: on a display on which initialize has not successfully completed,
each of setLine (PrintLine), setLines (PrintLines), clear (Clear) and
commit (Update) returns the NotInitialized error, leaves the display state
unchanged, and makes zero calls into the render target (empty event
trace, so in particular no Open, Bounds or Draw call). -/
theorem C3_uninitialized_ops (d : Display) (w : World) (i start : Nat)
    (s : String) (texts : List String) (h : d.initialized = false) :
    d.Clear = (some DispErr.notInitialized, d)
    ∧ d.PrintLine i s = (some DispErr.notInitialized, d)
    ∧ d.PrintLines start texts = (some DispErr.notInitialized, d)
    ∧ d.Update w = ⟨some DispErr.notInitialized, d, w.file, []⟩ := by
  unfold Display.Clear Display.PrintLine Display.PrintLines Display.Update
  simp [h]

/-- C3 witness: the theorem applied to a concrete uninitialized display. -/
theorem C3_uninitialized_ops_witness :
    ((⟨"/tmp/b", 5, ["x"], false⟩ : Display).initialized = false)
    ∧ (⟨"/tmp/b", 5, ["x"], false⟩ : Display).Update
        ⟨none, true, ⟨⟨⟨0, 0⟩, ⟨128, 64⟩⟩, true⟩⟩
      = ⟨some DispErr.notInitialized, ⟨"/tmp/b", 5, ["x"], false⟩, none, []⟩ :=
  ⟨rfl, (C3_uninitialized_ops ⟨"/tmp/b", 5, ["x"], false⟩
    ⟨none, true, ⟨⟨⟨0, 0⟩, ⟨128, 64⟩⟩, true⟩⟩ 0 0 "" [] rfl).2.2.2⟩

/-- C10: commit (Update) never mutates the display, in particular its line
buffer: on every path (success, persistence failure, draw failure) the
display in the result is the pre-call display. -/
theorem C10_Update_preserves_display (d : Display) (w : World) :
    (d.Update w).disp = d :=
  Update_disp_eq d w

/-- C9: an Update on an initialized display that reaches the draw stage
(no buffer file configured, or the buffer-file write succeeded) issues
exactly one Draw call to the render target, with the driver's full
reported bounds as the region and a zero source offset. -/
theorem C9_Update_single_draw (d : Display) (w : World)
    (hinit : d.initialized = true)
    (hreach : d.bufferFile = "" ∨ w.writeOk = true) :
    (d.Update w).events.filter Event.isDraw
      = [Event.draw w.driver.bounds ⟨0, 0⟩] := by
  unfold Display.Update drawPhase
  cases hdraw : w.driver.drawOk <;>
    rcases hreach with h | h <;>
      by_cases hf : d.bufferFile = "" <;>
        simp [hinit, h, hf, hdraw, Event.isDraw]

/-- C9 witness: the theorem applied to a display with no buffer file and a
driver accepting the draw. -/
theorem C9_Update_single_draw_witness :
    ((⟨"", 5, ["x"], true⟩ : Display).initialized = true)
    ∧ ((⟨"", 5, ["x"], true⟩ : Display).bufferFile = "" ∨ True)
    ∧ ((⟨"", 5, ["x"], true⟩ : Display).Update
          ⟨none, false, ⟨⟨⟨0, 0⟩, ⟨128, 64⟩⟩, true⟩⟩).events.filter Event.isDraw
        = [Event.draw ⟨⟨0, 0⟩, ⟨128, 64⟩⟩ ⟨0, 0⟩] :=
  ⟨rfl, Or.inl rfl,
    C9_Update_single_draw ⟨"", 5, ["x"], true⟩
      ⟨none, false, ⟨⟨⟨0, 0⟩, ⟨128, 64⟩⟩, true⟩⟩ rfl (Or.inl rfl)⟩

/-- C2: on an initialized display with a persistence path configured,
Update attempts the buffer-file write before any Draw call (the first
event is the file write of the newline-joined buffer), and when the file
write fails, Update returns the PersistFailure error, performs zero Draw
calls, and the file keeps its prior contents. -/
theorem C2_Update_persist_before_draw (d : Display) (w : World)
    (hinit : d.initialized = true) (hfile : d.bufferFile ≠ "") :
    ((d.Update w).events.head?
        = some (Event.fileWrite d.bufferFile (strJoinNL d.buffer)))
    ∧ (w.writeOk = false →
        (d.Update w).err = some DispErr.persistFailure
        ∧ (d.Update w).events.filter Event.isDraw = []
        ∧ (d.Update w).file = w.file) := by
  unfold Display.Update drawPhase
  cases hw : w.writeOk <;> cases hdraw : w.driver.drawOk <;>
    simp [hinit, hfile, hdraw, Event.isDraw]

/-- C2 witness: the theorem applied to a concrete display whose file write
fails. -/
theorem C2_Update_persist_before_draw_witness :
    ((⟨"/tmp/b", 2, ["a", "b"], true⟩ : Display).initialized = true)
    ∧ ((⟨"/tmp/b", 2, ["a", "b"], true⟩ : Display).bufferFile ≠ "")
    ∧ (((⟨"/tmp/b", 2, ["a", "b"], true⟩ : Display).Update
          ⟨some "old", false, ⟨⟨⟨0, 0⟩, ⟨128, 64⟩⟩, true⟩⟩).err
        = some DispErr.persistFailure
      ∧ ((⟨"/tmp/b", 2, ["a", "b"], true⟩ : Display).Update
          ⟨some "old", false, ⟨⟨⟨0, 0⟩, ⟨128, 64⟩⟩, true⟩⟩).events.filter Event.isDraw
        = []
      ∧ ((⟨"/tmp/b", 2, ["a", "b"], true⟩ : Display).Update
          ⟨some "old", false, ⟨⟨⟨0, 0⟩, ⟨128, 64⟩⟩, true⟩⟩).file = some "old") :=
  ⟨rfl, by decide,
    (C2_Update_persist_before_draw ⟨"/tmp/b", 2, ["a", "b"], true⟩
      ⟨some "old", false, ⟨⟨⟨0, 0⟩, ⟨128, 64⟩⟩, true⟩⟩ rfl (by decide)).2 rfl⟩

/-- C7 (code bug): the claim demands the OutOfRange error for every index
at or beyond the capacity, but for a `uint` index in `[2^63, 2^64)` the Go
range check compares a wrapped-negative `int(line)` against the buffer
length, passes, and `d.buffer[line]` then panics with an index-out-of-range
runtime error instead of returning the documented error: here, on an
initialized five-line display, index `2^63` panics and index `2^64 - 1`
panics, while the in-intent index `7` still returns OutOfRange. -/
theorem C7_PrintLine_wrap_bug :
    ((Display.PrintLine ⟨"", 5, ["", "", "", "", ""], true⟩ (2 ^ 63) "x")
      = (some DispErr.panicked, ⟨"", 5, ["", "", "", "", ""], true⟩))
    ∧ ((Display.PrintLine ⟨"", 5, ["", "", "", "", ""], true⟩ (2 ^ 64 - 1) "x").1
      = some DispErr.panicked)
    ∧ ((Display.PrintLine ⟨"", 5, ["", "", "", "", ""], true⟩ 7 "x").1
      = some DispErr.outOfRange)
    ∧ ((5 : Nat) ≤ 2 ^ 63) := by
  decide

/-- C1 (code bug): the claim demands the Overflow error exactly when
`start + len(texts) > capacity`, but for `start = 2^64 - 1` (a `uint`, the
value the CLI passes for `--line 0`) Go computes `int(start) = -1`, the
overflow check passes, and the call returns success for empty `texts`
(where the claim demands Overflow, since `start + 0 > 5`) and panics on a
negative slice index for nonempty `texts` — never the claimed error. -/
theorem C1_PrintLines_wrap_bug :
    ((Display.PrintLines ⟨"", 5, ["", "", "", "", ""], true⟩ (2 ^ 64 - 1) [])
      = (none, ⟨"", 5, ["", "", "", "", ""], true⟩))
    ∧ ((2 ^ 64 - 1) + ([] : List String).length > 5)
    ∧ ((Display.PrintLines ⟨"", 5, ["", "", "", "", ""], true⟩ (2 ^ 64 - 1)
        ["a"]).1 = some DispErr.panicked)
    ∧ ((Display.PrintLines ⟨"", 5, ["", "", "", "", ""], true⟩ 0
        ["1", "2", "3", "4", "5", "6"]).1 = some DispErr.overflow) := by
  decide

/-- C5: loadFromFile (updateFromFile) fails with the missing-path error
when no buffer file is configured; a nonexistent file is a success that
leaves the display exactly at its pre-call state; an existing file is split
on newline, truncated to at most the capacity, copied element-wise into the
buffer front, and every buffer entry beyond the file's line count keeps its
prior value. -/
theorem C5_updateFromFile_spec (d : Display) (file : Option String)
    (data : String) (hlen : d.buffer.length = d.lines) :
    (d.bufferFile = "" → d.updateFromFile file = (some DispErr.missingPath, d))
    ∧ (d.bufferFile ≠ "" → file = none → d.updateFromFile file = (none, d))
    ∧ (d.bufferFile ≠ "" → file = some data →
        (d.updateFromFile file).1 = none
        ∧ ∀ j, ((d.updateFromFile file).2.buffer)[j]? =
            if j < min (strSplitNL data).length d.lines
            then (strSplitNL data)[j]? else d.buffer[j]?) := by
  refine ⟨?_, ?_, ?_⟩
  · intro hf
    simp [Display.updateFromFile, hf]
  · intro hf hn
    subst hn
    simp [Display.updateFromFile, hf]
  · intro hf hs
    subst hs
    refine ⟨by simp [Display.updateFromFile, hf], ?_⟩
    intro j
    simp only [Display.updateFromFile, if_neg hf]
    by_cases ht : d.buffer.length < (strSplitNL data).length
    · simp only [if_pos ht]
      rw [copyGo_getElem?]
      have h1 : min d.buffer.length ((strSplitNL data).take d.buffer.length).length
          = d.buffer.length := by
        rw [List.length_take]; omega
      have h2 : min (strSplitNL data).length d.lines = d.lines := by omega
      rw [h1, h2]
      by_cases hj : j < d.buffer.length
      · rw [if_pos hj, if_pos (by omega), List.getElem?_take_of_lt hj]
      · rw [if_neg hj, if_neg (by omega)]
    · simp only [if_neg ht]
      rw [copyGo_getElem?]
      have h1 : min d.buffer.length (strSplitNL data).length
          = (strSplitNL data).length := by omega
      have h2 : min (strSplitNL data).length d.lines
          = (strSplitNL data).length := by omega
      rw [h1, h2]

/-- C5 witness: the theorem applied to a two-line display loading an
existing one-line file. -/
theorem C5_updateFromFile_spec_witness :
    ((⟨"/tmp/b", 2, ["x", "y"], true⟩ : Display).buffer.length
        = (⟨"/tmp/b", 2, ["x", "y"], true⟩ : Display).lines)
    ∧ ((⟨"/tmp/b", 2, ["x", "y"], true⟩ : Display).bufferFile ≠ "")
    ∧ (((⟨"/tmp/b", 2, ["x", "y"], true⟩ : Display).updateFromFile
          (some "hello")).1 = none
      ∧ ∀ j, (((⟨"/tmp/b", 2, ["x", "y"], true⟩ : Display).updateFromFile
            (some "hello")).2.buffer)[j]? =
          if j < min (strSplitNL "hello").length
              (⟨"/tmp/b", 2, ["x", "y"], true⟩ : Display).lines
          then (strSplitNL "hello")[j]?
          else (⟨"/tmp/b", 2, ["x", "y"], true⟩ : Display).buffer[j]?) :=
  ⟨rfl, by decide,
    (C5_updateFromFile_spec ⟨"/tmp/b", 2, ["x", "y"], true⟩
      (some "hello") "hello" rfl).2.2 (by decide) rfl⟩

/-- C4: the buffer-length invariant: after initialize the buffer has
exactly `lines` entries (all empty when there is no persisted content:
no buffer file configured, or the file absent), and Clear, PrintLine,
PrintLines, updateFromFile and Update all preserve the buffer length. -/
theorem C4_buffer_length_invariant (d d0 : Display) (file : Option String)
    (openOk : Bool) (w : World) (i start : Nat) (s : String)
    (texts : List String) :
    ((d0.Init file openOk).2.buffer.length = d0.lines)
    ∧ (d0.bufferFile = "" ∨ file = none →
        (d0.Init file openOk).2.buffer = List.replicate d0.lines "")
    ∧ (d.Clear.2.buffer.length = d.buffer.length)
    ∧ ((d.PrintLine i s).2.buffer.length = d.buffer.length)
    ∧ ((d.PrintLines start texts).2.buffer.length = d.buffer.length)
    ∧ ((d.updateFromFile file).2.buffer.length = d.buffer.length)
    ∧ ((d.Update w).disp.buffer.length = d.buffer.length) := by
  refine ⟨?_, ?_, ?_, ?_, ?_, ?_, ?_⟩
  · unfold Display.Init Display.updateFromFile
    by_cases hf : d0.bufferFile = "" <;>
      cases file <;> cases openOk <;>
        simp [hf, copyGo_length]
  · intro hnc
    unfold Display.Init Display.updateFromFile
    rcases hnc with hf | hf
    · cases openOk <;> simp [hf]
    · subst hf
      by_cases hf : d0.bufferFile = "" <;> cases openOk <;> simp [hf]
  · unfold Display.Clear
    cases hi : d.initialized <;> simp
  · unfold Display.PrintLine
    cases hi : d.initialized
    · simp
    · simp only [Bool.not_true]
      rw [if_neg (by simp)]
      split
      · rfl
      · split <;> simp
  · unfold Display.PrintLines
    cases hi : d.initialized
    · simp
    · simp only [Bool.not_true]
      rw [if_neg (by simp)]
      split
      · rfl
      · have hl := writeLoop_buf_length texts d.buffer (intOfUint start)
        cases hres : writeLoop d.buffer (intOfUint start) texts with
        | done b =>
          rw [hres] at hl
          simp only [LoopResult.buf] at hl
          simp [hres, hl]
        | panicked b =>
          rw [hres] at hl
          simp only [LoopResult.buf] at hl
          simp [hres, hl]
  · unfold Display.updateFromFile
    by_cases hf : d.bufferFile = "" <;> cases file <;>
      simp [hf, copyGo_length]
  · rw [Update_disp_eq]

/-- C4 witness: the theorem applied to a fresh three-line display
initialized with no persisted content. -/
theorem C4_buffer_length_invariant_witness :
    (((⟨"", 3, [], false⟩ : Display).Init none true).2.buffer.length
        = (⟨"", 3, [], false⟩ : Display).lines)
    ∧ ((⟨"", 3, [], false⟩ : Display).bufferFile = "" ∨ (none : Option String) = none)
    ∧ (((⟨"", 3, [], false⟩ : Display).Init none true).2.buffer
        = List.replicate (⟨"", 3, [], false⟩ : Display).lines "") :=
  ⟨(C4_buffer_length_invariant ⟨"", 3, [], false⟩ ⟨"", 3, [], false⟩ none true
      ⟨none, true, ⟨⟨⟨0, 0⟩, ⟨128, 64⟩⟩, true⟩⟩ 0 0 "" []).1,
    Or.inl rfl,
    (C4_buffer_length_invariant ⟨"", 3, [], false⟩ ⟨"", 3, [], false⟩ none true
      ⟨none, true, ⟨⟨⟨0, 0⟩, ⟨128, 64⟩⟩, true⟩⟩ 0 0 "" []).2.1 (Or.inl rfl)⟩

/-- C6 counterexample: a capacity-1 display whose single line is the
two-character-separated text "a\nb"; committing writes the file, but a
fresh capacity-1 display loading that file gets the line "a", not the
original line — the round-trip is not exact for every buffer. -/
theorem C6_roundtrip_counterexample :
    (((⟨"f", 1, [], false⟩ : Display).Init
        ((Display.Update ⟨"f", 1, ["a\nb"], true⟩
          ⟨none, true, ⟨⟨⟨0, 0⟩, ⟨128, 64⟩⟩, true⟩⟩).file) true).2.buffer
      = ["a"])
    ∧ (((⟨"f", 1, [], false⟩ : Display).Init
        ((Display.Update ⟨"f", 1, ["a\nb"], true⟩
          ⟨none, true, ⟨⟨⟨0, 0⟩, ⟨128, 64⟩⟩, true⟩⟩).file) true).2.buffer
      ≠ ["a\nb"]) := by
  decide

/-- C6 (amended): when no buffer line contains a newline character,
committing (which writes the newline-joined buffer to the file) and then
initializing a fresh display of the same capacity from that file
reproduces the original lines exactly; and loading any file holding at
least `capacity` lines into a fresh display yields exactly the first
`capacity` lines. -/
theorem C6_roundtrip_amended (ls : List String) (n : Nat)
    (path content : String) (w : World)
    (hpath : path ≠ "") (hw : w.writeOk = true) :
    (ls.length = n → (∀ s ∈ ls, '\n' ∉ s.data) →
      ((⟨path, n, [], false⟩ : Display).Init
          ((Display.Update ⟨path, n, ls, true⟩ w).file) true).2.buffer = ls)
    ∧ (n ≤ (strSplitNL content).length →
      ((⟨path, n, [], false⟩ : Display).Init (some content) true).2.buffer
        = (strSplitNL content).take n) := by
  constructor
  · intro hn hnl
    rw [Update_file_eq ⟨path, n, ls, true⟩ w rfl hpath hw]
    cases hls : ls with
    | nil =>
      subst hls
      simp only [List.length_nil] at hn
      subst hn
      rw [Init_fresh_buffer 0 path _ hpath]
      simp [copyGo_nil_left]
    | cons a as =>
      have hsplit : strSplitNL (strJoinNL ls) = ls :=
        strSplitNL_strJoinNL ls (by rw [hls]; exact List.cons_ne_nil a as) hnl
      rw [← hls, Init_fresh_buffer n path _ hpath, hsplit,
        if_neg (by omega)]
      rw [copyGo_of_length_le _ _ (by simp; omega), List.length_replicate,
        ← hn, List.take_length]
  · intro hn
    rw [Init_fresh_buffer n path content hpath]
    by_cases hlt : n < (strSplitNL content).length
    · rw [if_pos hlt,
        copyGo_of_length_le _ _ (by rw [List.length_replicate, List.length_take]; omega),
        List.length_replicate, List.take_take, Nat.min_self]
    · rw [if_neg hlt,
        copyGo_of_length_le _ _ (by rw [List.length_replicate]; omega),
        List.length_replicate]

/-- C6 witness: the amended theorem applied to a concrete two-line buffer
with newline-free lines, and to a three-line file loaded at capacity 2. -/
theorem C6_roundtrip_amended_witness :
    ("f" ≠ "")
    ∧ (∀ s ∈ (["hi", "yo"] : List String), '\n' ∉ s.data)
    ∧ (((⟨"f", 2, [], false⟩ : Display).Init
          ((Display.Update ⟨"f", 2, ["hi", "yo"], true⟩
            ⟨none, true, ⟨⟨⟨0, 0⟩, ⟨128, 64⟩⟩, true⟩⟩).file) true).2.buffer
        = ["hi", "yo"])
    ∧ (((⟨"f", 2, [], false⟩ : Display).Init (some "p\nq\nr") true).2.buffer
        = (strSplitNL "p\nq\nr").take 2) :=
  ⟨by decide, by decide,
    (C6_roundtrip_amended ["hi", "yo"] 2 "f" "p\nq\nr"
      ⟨none, true, ⟨⟨⟨0, 0⟩, ⟨128, 64⟩⟩, true⟩⟩ (by decide) rfl).1 rfl
      (by decide),
    (C6_roundtrip_amended ["hi", "yo"] 2 "f" "p\nq\nr"
      ⟨none, true, ⟨⟨⟨0, 0⟩, ⟨128, 64⟩⟩, true⟩⟩ (by decide) rfl).2
      (by decide)⟩

/-- C8: ShowImage produces a frame of exactly the render target's bounds;
for each target pixel `(x, y)` (with target bounds based at the origin, as
every driver in the repository reports) it samples the source at `(x, y)`
offset by the source bounds' own origin, leaves the pixel unset when the
sample lies outside the source bounds, and otherwise sets it on exactly
when the sampled gray level exceeds the midpoint 128 of the 0..255 range;
a source strictly larger than the target is never sampled outside its
bounds, and no size mismatch ever causes an error. -/
theorem C8_ShowImage_spec (d : Display) (drv : Driver) (img : GrayImage)
    (hinit : d.initialized = true) (hmin : drv.bounds.min = ⟨0, 0⟩) :
    (∀ frame, (d.ShowImage drv img).2 = some frame → frame.bounds = drv.bounds)
    ∧ (drv.drawOk = true → (d.ShowImage drv img).1 = none)
    ∧ (∀ frame, (d.ShowImage drv img).2 = some frame →
        ∀ x y, inRect drv.bounds x y = true →
          frame.pix x y =
            if inRect img.bounds (img.bounds.min.x + x) (img.bounds.min.y + y)
            then decide (128 < img.grayAt (img.bounds.min.x + x)
              (img.bounds.min.y + y))
            else false)
    ∧ (drv.bounds.max.x - drv.bounds.min.x < img.bounds.max.x - img.bounds.min.x →
        drv.bounds.max.y - drv.bounds.min.y < img.bounds.max.y - img.bounds.min.y →
        ∀ x y, inRect drv.bounds x y = true →
          inRect img.bounds (img.bounds.min.x + x) (img.bounds.min.y + y)
            = true) := by
  have hframe : (d.ShowImage drv img).2
      = some ⟨drv.bounds, showImagePix drv.bounds img⟩ := by
    unfold Display.ShowImage
    cases hdraw : drv.drawOk <;> simp [hinit, hdraw]
  refine ⟨?_, ?_, ?_, ?_⟩
  · intro frame hf
    rw [hframe] at hf
    injection hf with h
    rw [← h]
  · intro hdraw
    unfold Display.ShowImage
    simp [hinit, hdraw]
  · intro frame hf x y hxy
    rw [hframe] at hf
    injection hf with h
    rw [← h]
    have hx0 : 0 ≤ x ∧ 0 ≤ y := by
      simp [inRect, hmin] at hxy
      omega
    have hiff : (inRect img.bounds (img.bounds.min.x + x) (img.bounds.min.y + y)
          = true)
        ↔ (img.bounds.min.x + x < img.bounds.max.x
          ∧ img.bounds.min.y + y < img.bounds.max.y) := by
      simp [inRect]
      omega
    simp only [showImagePix, hxy, if_true, Bool.and_eq_true, decide_eq_true_eq,
      hiff]
  · intro hwx hwy x y hxy
    simp [hmin] at hwx hwy
    simp [inRect, hmin] at hxy
    simp [inRect]
    omega

/-- C8 witness: the theorem applied to a 2-by-2 target and a uniformly
bright 3-by-3 source strictly larger than the target. -/
theorem C8_ShowImage_spec_witness :
    ((⟨"", 5, [], true⟩ : Display).initialized = true)
    ∧ ((⟨⟨⟨0, 0⟩, ⟨2, 2⟩⟩, true⟩ : Driver).bounds.min = (⟨0, 0⟩ : Point))
    ∧ (((⟨"", 5, [], true⟩ : Display).ShowImage ⟨⟨⟨0, 0⟩, ⟨2, 2⟩⟩, true⟩
          ⟨⟨⟨0, 0⟩, ⟨3, 3⟩⟩, fun _ _ => 200⟩).1 = none)
    ∧ (∀ x y, inRect (⟨⟨0, 0⟩, ⟨2, 2⟩⟩ : Rect) x y = true →
        inRect (⟨⟨0, 0⟩, ⟨3, 3⟩⟩ : Rect) ((0 : Int) + x) ((0 : Int) + y)
          = true) :=
  ⟨rfl, rfl,
    (C8_ShowImage_spec ⟨"", 5, [], true⟩ ⟨⟨⟨0, 0⟩, ⟨2, 2⟩⟩, true⟩
      ⟨⟨⟨0, 0⟩, ⟨3, 3⟩⟩, fun _ _ => 200⟩ rfl rfl).2.1 rfl,
    (C8_ShowImage_spec ⟨"", 5, [], true⟩ ⟨⟨⟨0, 0⟩, ⟨2, 2⟩⟩, true⟩
      ⟨⟨⟨0, 0⟩, ⟨3, 3⟩⟩, fun _ _ => 200⟩ rfl rfl).2.2.2 (by decide) (by decide)⟩

end SSD1306Display
